import Mathlib

/-!
Verification of the interaction layer in
`src/materials/static/materials/js/main.js` (counter ramps, one-shot
intersection-observer animations, typewriter reveal, theme toggle,
scroll-to-top visibility, notifications, share/clipboard helpers).

JavaScript numbers are modelled as exact rationals extended with `NaN`
(`JSNum`): every arithmetic operation the script performs (`+`, `/`,
`Math.floor`, `>=`) is given its JavaScript semantics on that carrier,
with `NaN` absorbing arithmetic and making every comparison false.
DOM element state is explicit (`CounterState`, `ObserverState`, …) and
each timer tick or browser event is one step function; a run is an
iteration or fold over steps.
-/

namespace MainJs

/-- A JavaScript number as this script computes them: an exact rational or
`NaN`.  (`parseInt` of a non-numeric `data-target` yields `NaN`; all other
numbers in the script are exact.) -/
inductive JSNum where
  | num (q : ℚ)
  | nan
deriving DecidableEq, Repr

/-- JavaScript `+` on numbers: `NaN` absorbs. -/
def JSNum.add : JSNum → JSNum → JSNum
  | .num a, .num b => .num (a + b)
  | _, _ => .nan

/-- JavaScript `/` on numbers: `NaN` absorbs.  (Division by zero never
occurs in the script — the only divisors are the literals `16` and
`duration / 16` with the default `duration = 2000` — so the zero-divisor
case is mapped to `nan` without modelling infinities.) -/
def JSNum.div : JSNum → JSNum → JSNum
  | .num a, .num b => if b = 0 then .nan else .num (a / b)
  | _, _ => .nan

/-- JavaScript `Math.floor`: `Math.floor(NaN)` is `NaN`. -/
def JSNum.floorJS : JSNum → JSNum
  | .num q => .num (⌊q⌋ : ℚ)
  | .nan => .nan

/-- JavaScript `>=` on numbers: any comparison with `NaN` is false; on
plain numbers `a >= b` is `¬(a < b)`. -/
def JSNum.geb : JSNum → JSNum → Bool
  | .num a, .num b => !(Rat.blt a b)
  | _, _ => false

/-- State owned by one `animateCounter` invocation: the running value
`start`, the element's displayed text, and whether the interval timer is
still set.  `textContent` only ever receives the string form of a
JavaScript number, and distinct members of `ℤ ∪ {NaN}` stringify
distinctly, so the display is recorded as the number written (`none` =
the element's original text, untouched). -/
structure CounterState where
  start : JSNum
  shown : Option JSNum
  timerActive : Bool
deriving DecidableEq, Repr

/-- `const increment = target / (duration / 16)` from `animateCounter`. -/
def animateCounterIncrement (target duration : JSNum) : JSNum :=
  target.div (duration.div (.num 16))

/-- One tick of the `setInterval` callback inside `animateCounter`:
`start += increment; if (start >= target) { element.textContent = target;
clearInterval(timer); } else { element.textContent = Math.floor(start); }`.
A tick after `clearInterval` does not occur, so it leaves the state
unchanged. -/
def animateCounterStep (target increment : JSNum) (s : CounterState) : CounterState :=
  if s.timerActive then
    let start := s.start.add increment
    if start.geb target then
      { start := start, shown := some target, timerActive := false }
    else
      { start := start, shown := some start.floorJS, timerActive := true }
  else s

/-- `animateCounter` starts from `let start = 0` with the element's
original text still displayed and the timer set. -/
def counterInit : CounterState :=
  { start := .num 0, shown := none, timerActive := true }

/-- The state after `k` ticks of `animateCounter(element, target)` called
with the default `duration = 2000` (as the counter observer calls it). -/
def animateCounterRun (target : JSNum) (k : ℕ) : CounterState :=
  (animateCounterStep target (animateCounterIncrement target (.num 2000)))^[k] counterInit

/-- Ordering of displayed contents: both are displayed numbers and the
first is at most the second. -/
def shownLE : Option JSNum → Option JSNum → Prop
  | some (.num a), some (.num b) => a ≤ b
  | _, _ => False

/-- The displayed value after tick `j ≥ 1` of a ramp toward a positive
integer target `T`: the floor of the running value while the timer is
live, the exact target from tick 125 on. -/
def dispVal (T j : ℕ) : ℚ :=
  if j < 125 then (⌊(j * T / 125 : ℚ)⌋ : ℚ) else (T : ℚ)

lemma shownLE_num (a b : ℚ) : shownLE (some (.num a)) (some (.num b)) ↔ a ≤ b :=
  Iff.rfl

lemma rat_lt_iff_blt (a b : ℚ) : a < b ↔ Rat.blt a b = true := Iff.rfl

lemma geb_num_eq_decide (a b : ℚ) :
    (JSNum.num a).geb (JSNum.num b) = decide (b ≤ a) := by
  by_cases h : a < b
  · have hb : Rat.blt a b = true := (rat_lt_iff_blt a b).mp h
    simp [JSNum.geb, hb, not_le.mpr h]
  · have hb : Rat.blt a b = false := by
      rcases hblt : Rat.blt a b
      · rfl
      · exact absurd ((rat_lt_iff_blt a b).mpr hblt) h
    simp [JSNum.geb, hb, not_lt.mp h]

lemma animateCounterIncrement_num (t : ℚ) :
    animateCounterIncrement (.num t) (.num 2000) = .num (t / 125) := by
  norm_num [animateCounterIncrement, JSNum.div]

lemma animateCounterRun_succ (t : JSNum) (k : ℕ) :
    animateCounterRun t (k + 1) =
      animateCounterStep t (animateCounterIncrement t (.num 2000)) (animateCounterRun t k) := by
  simp [animateCounterRun, Function.iterate_succ_apply']

lemma animateCounterStep_inactive (t i : JSNum) (s : CounterState)
    (h : s.timerActive = false) : animateCounterStep t i s = s := by
  simp [animateCounterStep, h]

lemma animateCounterStep_active_lt (t i r : ℚ) (s : CounterState)
    (hA : s.timerActive = true) (hs : s.start = .num r) (h : r + i < t) :
    animateCounterStep (.num t) (.num i) s =
      { start := .num (r + i), shown := some (.num (⌊r + i⌋ : ℚ)), timerActive := true } := by
  simp only [animateCounterStep, hA, if_true, hs, JSNum.add, geb_num_eq_decide]
  rw [if_neg]
  · simp [JSNum.floorJS]
  · simp [not_le.mpr h]

lemma animateCounterStep_active_ge (t i r : ℚ) (s : CounterState)
    (hA : s.timerActive = true) (hs : s.start = .num r) (h : t ≤ r + i) :
    animateCounterStep (.num t) (.num i) s =
      { start := .num (r + i), shown := some (.num t), timerActive := false } := by
  simp only [animateCounterStep, hA, if_true, hs, JSNum.add, geb_num_eq_decide]
  rw [if_pos]
  simp [h]

lemma animateCounterRun_stable (t : JSNum) (n : ℕ)
    (h : (animateCounterRun t n).timerActive = false) :
    ∀ m : ℕ, n ≤ m → animateCounterRun t m = animateCounterRun t n := by
  intro m hm
  induction m with
  | zero => cases Nat.le_zero.mp hm; rfl
  | succ p ih =>
    rcases Nat.lt_or_ge p n with hp | hp
    · have : n = p + 1 := by omega
      rw [this]
    · rw [animateCounterRun_succ, ih hp, animateCounterStep_inactive _ _ _ h]

/-- Ticks of a ramp toward target `0`: the very first tick already has
`start >= target`, displays `0` and clears the timer; later ticks change
nothing. -/
lemma animateCounterRun_target_zero (k : ℕ) (hk : 1 ≤ k) :
    animateCounterRun (.num 0) k =
      { start := .num 0, shown := some (.num 0), timerActive := false } := by
  have h1 : animateCounterRun (.num 0) 1 =
      { start := .num 0, shown := some (.num 0), timerActive := false } := by
    have h0 : animateCounterRun (.num 0) 0 = counterInit := rfl
    rw [show (1 : ℕ) = 0 + 1 from rfl, animateCounterRun_succ,
      animateCounterIncrement_num, h0]
    have := animateCounterStep_active_ge 0 (0 / 125) 0 counterInit rfl rfl (by norm_num)
    rw [this]
    norm_num
  calc animateCounterRun (.num 0) k = animateCounterRun (.num 0) 1 := by
        apply animateCounterRun_stable
        · rw [h1]
        · exact hk
    _ = _ := h1

/-- Closed form of the ramp toward a positive integer target `T` with the
default duration `2000` (increment `T / 125`): at tick `k ≤ 124` the
running value is `k * T / 125`, still short of `T`, and the floor of the
running value is displayed; at tick `125` the running value reaches `T`
exactly, the display snaps to `T` and the timer is cleared. -/
lemma animateCounterRun_closed (T : ℕ) (hT : 0 < T) :
    ∀ k : ℕ, 1 ≤ k → k ≤ 125 →
    animateCounterRun (.num T) k =
      if k < 125 then
        { start := .num (k * T / 125), shown := some (.num (⌊(k * T / 125 : ℚ)⌋ : ℚ)),
          timerActive := true }
      else
        { start := .num T, shown := some (.num T), timerActive := false } := by
  have hTQ : (0 : ℚ) < T := by exact_mod_cast hT
  intro k hk1 hk2
  induction k with
  | zero => omega
  | succ n ih =>
    rcases Nat.eq_zero_or_pos n with h0 | hn
    · subst h0
      have h0' : animateCounterRun (.num T) 0 = counterInit := rfl
      rw [animateCounterRun_succ, animateCounterIncrement_num, h0',
        animateCounterStep_active_lt T (T / 125) 0 counterInit rfl rfl
          (by rw [zero_add]; rw [div_lt_iff₀ (by norm_num : (0:ℚ) < 125)]; nlinarith)]
      norm_num
    · have hn2 : n ≤ 125 := by omega
      have hn125 : n < 125 := by omega
      rw [animateCounterRun_succ, animateCounterIncrement_num, ih hn hn2, if_pos hn125]
      rcases Nat.lt_or_ge (n + 1) 125 with hlt | hge
      · rw [animateCounterStep_active_lt T (T / 125) (n * T / 125) _ rfl rfl ?hlt]
        · rw [if_pos hlt]
          have harith : (n : ℚ) * T / 125 + T / 125 = ((n : ℚ) + 1) * T / 125 := by ring
          push_cast
          rw [harith]
        · rw [div_add_div_same, div_lt_iff₀ (by norm_num : (0:ℚ) < 125)]
          have hcast : (n : ℚ) + 1 < 125 := by exact_mod_cast hlt
          nlinarith
      · have h125 : n + 1 = 125 := by omega
        rw [animateCounterStep_active_ge T (T / 125) (n * T / 125) _ rfl rfl ?hge]
        · rw [if_neg (by omega)]
          have harith : (n : ℚ) * T / 125 + T / 125 = ((n : ℚ) + 1) * T / 125 := by ring
          have hn' : (n : ℚ) = 124 := by exact_mod_cast (by omega : n = 124)
          rw [harith, hn']
          norm_num
        · rw [div_add_div_same]
          have hn' : (n : ℚ) = 124 := by exact_mod_cast (by omega : n = 124)
          rw [hn']
          rw [le_div_iff₀ (by norm_num : (0:ℚ) < 125)]
          ring_nf
          rfl


lemma runval_lt (T k : ℕ) (hT : 0 < T) (hk : k < 125) : (k : ℚ) * T / 125 < (T : ℚ) := by
  rw [div_lt_iff₀ (by norm_num : (0:ℚ) < 125)]
  have h1 : (k : ℚ) < 125 := by exact_mod_cast hk
  have h2 : (0 : ℚ) < T := by exact_mod_cast hT
  nlinarith

lemma animateCounterRun_shown (T : ℕ) (hT : 0 < T) (j : ℕ) (hj : 1 ≤ j) :
    (animateCounterRun (.num T) j).shown = some (.num (dispVal T j)) := by
  rcases Nat.lt_or_ge j 125 with h | h
  · rw [animateCounterRun_closed T hT j hj (by omega), if_pos h]
    simp [dispVal, h]
  · have h125 : animateCounterRun (.num T) 125 =
        { start := .num T, shown := some (.num T), timerActive := false } := by
      rw [animateCounterRun_closed T hT 125 (by omega) le_rfl]
      simp
    rw [animateCounterRun_stable (.num T) 125 (by rw [h125]) j h, h125]
    simp only [dispVal]
    rw [if_neg (by omega : ¬ j < 125)]

lemma dispVal_mono (T : ℕ) (j k : ℕ) (h : j ≤ k) : dispVal T j ≤ dispVal T k := by
  unfold dispVal
  rcases Nat.lt_or_ge k 125 with hk | hk
  · rw [if_pos (by omega : j < 125), if_pos hk]
    have hdiv : (j : ℚ) * T / 125 ≤ (k : ℚ) * T / 125 := by
      have hj : (j : ℚ) ≤ (k : ℚ) := by exact_mod_cast h
      have hT : (0 : ℚ) ≤ (T : ℚ) := by positivity
      gcongr
    exact_mod_cast Int.floor_le_floor hdiv
  · rcases Nat.lt_or_ge j 125 with hj | hj
    · rw [if_pos hj, if_neg (not_lt.mpr hk)]
      have h1 : (j : ℚ) * T / 125 ≤ (T : ℚ) := by
        rw [div_le_iff₀ (by norm_num : (0:ℚ) < 125)]
        have hjc : (j : ℚ) ≤ 125 := by exact_mod_cast hj.le
        have hT : (0 : ℚ) ≤ (T : ℚ) := by positivity
        nlinarith
      calc ((⌊(j : ℚ) * T / 125⌋ : ℚ)) ≤ (j : ℚ) * T / 125 := Int.floor_le _
        _ ≤ (T : ℚ) := h1
    · rw [if_neg (not_lt.mpr hj), if_neg (not_lt.mpr hk)]

/-- With a `NaN` target (`parseInt` of a non-numeric `data-target`), every
tick computes `start += NaN` (still `NaN`), the comparison `NaN >= NaN` is
false, so the else branch writes `Math.floor(NaN)` — the string `"NaN"` —
into the element and the timer is never cleared. -/
lemma animateCounterRun_nan (k : ℕ) (hk : 1 ≤ k) :
    animateCounterRun .nan k =
      { start := .nan, shown := some .nan, timerActive := true } := by
  have hinc : animateCounterIncrement .nan (.num 2000) = .nan := by
    simp [animateCounterIncrement, JSNum.div]
  induction k with
  | zero => omega
  | succ n ih =>
    rcases Nat.eq_zero_or_pos n with h0 | hn
    · subst h0
      have h0' : animateCounterRun .nan 0 = counterInit := rfl
      rw [animateCounterRun_succ, hinc, h0']
      simp [animateCounterStep, counterInit, JSNum.add, JSNum.geb, JSNum.floorJS]
    · rw [animateCounterRun_succ, hinc, ih hn]
      simp [animateCounterStep, JSNum.add, JSNum.geb, JSNum.floorJS]

/-- C1: for every counter element with integer target `T ≥ 0`, the ramp
started by `animateCounter` (default duration 2000) displays values that
are monotonically non-decreasing across ticks, and it terminates — at
some tick the timer is cleared, the display snaps to exactly `T`, and
every later tick leaves the state unchanged. -/
theorem animateCounter_monotone_terminates_exact (T : ℕ) :
    (∀ j k : ℕ, 1 ≤ j → j ≤ k →
      shownLE (animateCounterRun (.num T) j).shown (animateCounterRun (.num T) k).shown) ∧
    (∃ n : ℕ, 1 ≤ n ∧ (animateCounterRun (.num T) n).timerActive = false ∧
      (animateCounterRun (.num T) n).shown = some (.num (T : ℚ)) ∧
      ∀ m : ℕ, n ≤ m → animateCounterRun (.num T) m = animateCounterRun (.num T) n) := by
  rcases Nat.eq_zero_or_pos T with h0 | hT
  · subst h0
    simp only [Nat.cast_zero]
    constructor
    · intro j k hj hjk
      rw [animateCounterRun_target_zero j hj,
        animateCounterRun_target_zero k (hj.trans hjk)]
      exact (shownLE_num 0 0).mpr le_rfl
    · refine ⟨1, le_rfl, ?_, ?_, ?_⟩
      · rw [animateCounterRun_target_zero 1 le_rfl]
      · rw [animateCounterRun_target_zero 1 le_rfl]
      · intro m hm
        rw [animateCounterRun_target_zero m hm, animateCounterRun_target_zero 1 le_rfl]
  · constructor
    · intro j k hj hjk
      rw [animateCounterRun_shown T hT j hj, animateCounterRun_shown T hT k (hj.trans hjk)]
      exact (shownLE_num _ _).mpr (dispVal_mono T j k hjk)
    · have h125 : animateCounterRun (.num T) 125 =
          { start := .num T, shown := some (.num T), timerActive := false } := by
        rw [animateCounterRun_closed T hT 125 (by omega) le_rfl]
        simp
      refine ⟨125, by omega, ?_, ?_, ?_⟩
      · rw [h125]
      · rw [h125]
      · exact animateCounterRun_stable (.num T) 125 (by rw [h125])

/-- C7: a counter ramp with target `0` terminates on its very first tick:
the running value `0` already satisfies `start >= target`, so the element
displays `0`, the timer is cleared immediately, and the next tick changes
nothing. -/
theorem animateCounter_target_zero_first_tick :
    animateCounterRun (.num 0) 1 =
      { start := .num 0, shown := some (.num 0), timerActive := false } ∧
    animateCounterRun (.num 0) 2 = animateCounterRun (.num 0) 1 := by
  refine ⟨animateCounterRun_target_zero 1 le_rfl, ?_⟩
  rw [animateCounterRun_target_zero 2 (by omega), animateCounterRun_target_zero 1 le_rfl]

/-- C10: a counter ramp with integer target `T ≥ 0` never overshoots:
every displayed value is at most `T`; while the timer is live the display
is the floor of a running value strictly below `T`, and once the timer is
cleared the display is exactly `T`. -/
theorem animateCounter_never_overshoots (T : ℕ) (k : ℕ) (hk : 1 ≤ k) :
    ∃ v : ℚ, (animateCounterRun (.num T) k).shown = some (.num v) ∧ v ≤ (T : ℚ) ∧
      ((animateCounterRun (.num T) k).timerActive = false → v = (T : ℚ)) ∧
      ((animateCounterRun (.num T) k).timerActive = true →
        ∃ r : ℚ, (animateCounterRun (.num T) k).start = .num r ∧ r < (T : ℚ) ∧
          v = (⌊r⌋ : ℚ)) := by
  rcases Nat.eq_zero_or_pos T with h0 | hT
  · subst h0
    simp only [Nat.cast_zero]
    rw [animateCounterRun_target_zero k hk]
    exact ⟨0, by norm_num⟩
  · rcases Nat.lt_or_ge k 125 with hlt | hge
    · have hcf := animateCounterRun_closed T hT k hk (by omega)
      rw [if_pos hlt] at hcf
      have hrT : (k : ℚ) * T / 125 < (T : ℚ) := runval_lt T k hT hlt
      refine ⟨(⌊(k * T / 125 : ℚ)⌋ : ℚ), ?_, ?_, ?_, ?_⟩
      · rw [hcf]
      · calc ((⌊(k : ℚ) * T / 125⌋ : ℚ)) ≤ (k : ℚ) * T / 125 := Int.floor_le _
          _ ≤ (T : ℚ) := hrT.le
      · rw [hcf]
        intro h
        simp at h
      · rw [hcf]
        intro _
        exact ⟨(k : ℚ) * T / 125, rfl, hrT, rfl⟩
    · have h125 : animateCounterRun (.num T) 125 =
          { start := .num T, shown := some (.num T), timerActive := false } := by
        rw [animateCounterRun_closed T hT 125 (by omega) le_rfl]
        simp
      have hst := animateCounterRun_stable (.num T) 125 (by rw [h125]) k hge
      refine ⟨(T : ℚ), ?_, le_rfl, fun _ => rfl, ?_⟩
      · rw [hst, h125]
      · rw [hst, h125]
        intro h
        simp at h

/-- C10 witness: the overshoot bound instantiated at target `7`, tick `3`. -/
theorem animateCounter_never_overshoots_witness :
    ∃ v : ℚ, (animateCounterRun (.num ((7:ℕ) : ℚ)) 3).shown = some (.num v) ∧
      v ≤ ((7:ℕ) : ℚ) ∧
      ((animateCounterRun (.num ((7:ℕ) : ℚ)) 3).timerActive = false → v = ((7:ℕ) : ℚ)) ∧
      ((animateCounterRun (.num ((7:ℕ) : ℚ)) 3).timerActive = true →
        ∃ r : ℚ, (animateCounterRun (.num ((7:ℕ) : ℚ)) 3).start = .num r ∧
          r < ((7:ℕ) : ℚ) ∧ v = (⌊r⌋ : ℚ)) :=
  animateCounter_never_overshoots 7 3 (by norm_num)

/-- C4 counterexample: with a `NaN` target the ramp is not a no-op — the
very first tick changes the element's displayed content (to the string
form of `NaN`) and leaves the interval timer running. -/
theorem counter_nan_ramp_not_noop :
    (animateCounterRun .nan 1).shown = some .nan ∧
    (animateCounterRun .nan 1).shown ≠ counterInit.shown ∧
    (animateCounterRun .nan 1).timerActive = true := by
  rw [animateCounterRun_nan 1 le_rfl]
  simp [counterInit]

/-- C4 (amended): with a non-numeric `data-target` (`parseInt` gives
`NaN`) the ramp never terminates and is not content-preserving: every
tick writes `Math.floor(NaN)` — displayed as `NaN` — into the element,
replacing its original content, and the timer is never cleared. -/
theorem counter_nan_ramp_writes_nan_forever (k : ℕ) (hk : 1 ≤ k) :
    animateCounterRun .nan k =
      { start := .nan, shown := some .nan, timerActive := true } :=
  animateCounterRun_nan k hk

/-- C4 amended witness: the `NaN` ramp at tick `2`. -/
theorem counter_nan_ramp_writes_nan_forever_witness :
    animateCounterRun .nan 2 =
      { start := .nan, shown := some .nan, timerActive := true } :=
  counter_nan_ramp_writes_nan_forever 2 (by norm_num)

/-- State of an `IntersectionObserver` together with the one-shot
animations it has started: the set of still-observed elements (the
callback only receives entries for these; `unobserve` removes an element)
and the log of elements whose animation has been triggered.  Elements are
identified by natural numbers; the element lists produced by
`querySelectorAll` contain distinct nodes. -/
structure ObserverState where
  observed : List ℕ
  triggers : List ℕ
deriving DecidableEq, Repr

/-- One visibility crossing of element `e` (with `isIntersecting` flag
`inter`), processed by the observer callbacks of the script (counter
observer, `typewriterObserver`, `imageObserver`): the browser delivers an
entry only while `e` is observed; the callback then checks
`entry.isIntersecting`, starts the one-shot animation and calls
`unobserve(entry.target)`. -/
def intersectionEvent (s : ObserverState) (e : ℕ) (inter : Bool) : ObserverState :=
  if e ∈ s.observed then
    if inter then
      { observed := s.observed.erase e, triggers := s.triggers ++ [e] }
    else s
  else s

/-- A whole run of an observer: starting from the elements registered by
`observe`, process a sequence of visibility crossings. -/
def observerRun (elems : List ℕ) (events : List (ℕ × Bool)) : ObserverState :=
  events.foldl (fun s ev => intersectionEvent s ev.1 ev.2) { observed := elems, triggers := [] }

/-- The `animateOnScroll` handler for one `.animate-on-scroll` element:
`if (elementTop < window.innerHeight - 150) element.classList.add('visible')`.
`classList.add` of a class never removed is monotone on the element's
`visible` flag. -/
def animateOnScrollStep (innerHeight elementTop : ℤ) (visible : Bool) : Bool :=
  if elementTop < innerHeight - 150 then true else visible

/-- How many scroll events of the run actually flip the element's
`visible` flag from off to on (each event carries the current
`window.innerHeight` and the element's `getBoundingClientRect().top`). -/
def fadeInTriggerCount (visible : Bool) : List (ℤ × ℤ) → ℕ
  | [] => 0
  | ev :: evs =>
    let v := animateOnScrollStep ev.1 ev.2 visible
    (if v && !visible then 1 else 0) + fadeInTriggerCount v evs

lemma animateOnScrollStep_true (innerHeight elementTop : ℤ) :
    animateOnScrollStep innerHeight elementTop true = true := by
  unfold animateOnScrollStep
  split <;> rfl

lemma fadeInTriggerCount_true (evs : List (ℤ × ℤ)) :
    fadeInTriggerCount true evs = 0 := by
  induction evs with
  | nil => rfl
  | cons ev evs ih =>
    rw [fadeInTriggerCount]
    simp [animateOnScrollStep_true, ih]

/-- The per-element observer invariant: the observed list stays duplicate
free, an element still observed has not been triggered, and no element is
triggered twice. -/
def obsInv (s : ObserverState) : Prop :=
  s.observed.Nodup ∧ ∀ e : ℕ, (e ∈ s.observed → s.triggers.count e = 0) ∧ s.triggers.count e ≤ 1

lemma intersectionEvent_inv (s : ObserverState) (e : ℕ) (inter : Bool)
    (h : obsInv s) : obsInv (intersectionEvent s e inter) := by
  obtain ⟨hnd, hcnt⟩ := h
  unfold intersectionEvent
  by_cases hmem : e ∈ s.observed
  · rcases inter with _ | _
    · simpa [hmem] using ⟨hnd, hcnt⟩
    · simp only [hmem, if_true]
      refine ⟨hnd.erase e, fun x => ⟨fun hx => ?_, ?_⟩⟩
      · have hxne : x ≠ e := (List.Nodup.mem_erase_iff hnd).mp hx |>.1
        have hxmem : x ∈ s.observed := (List.Nodup.mem_erase_iff hnd).mp hx |>.2
        rw [List.count_append, (hcnt x).1 hxmem]
        simp [List.count_singleton, Ne.symm hxne]
      · rw [List.count_append, List.count_singleton]
        by_cases hxe : x = e
        · subst hxe
          rw [(hcnt x).1 hmem]
          simp
        · have := (hcnt x).2
          simp only [List.count_singleton, List.count_cons, List.count_nil, beq_iff_eq,
            if_neg (fun h => hxe (Eq.symm h))]
          omega
  · simpa [hmem] using ⟨hnd, hcnt⟩

lemma observerRun_inv (elems : List ℕ) (hnd : elems.Nodup) (events : List (ℕ × Bool)) :
    obsInv (observerRun elems events) := by
  have base : obsInv { observed := elems, triggers := [] } := by
    refine ⟨hnd, fun e => ⟨fun _ => ?_, ?_⟩⟩ <;> simp
  rw [observerRun]
  induction events generalizing elems with
  | nil => exact base
  | cons ev evs ih =>
    rw [List.foldl_cons]
    exact foldl_inv _ evs (intersectionEvent_inv _ ev.1 ev.2 base)
where
  foldl_inv (s : ObserverState) (evs : List (ℕ × Bool)) (h : obsInv s) :
      obsInv (evs.foldl (fun s ev => intersectionEvent s ev.1 ev.2) s) := by
    induction evs generalizing s with
    | nil => exact h
    | cons ev evs ih =>
      rw [List.foldl_cons]
      exact ih _ (intersectionEvent_inv _ ev.1 ev.2 h)

/-- C2: every one-shot animation fires at most once per element.  For the
intersection-observer driven ones (counter ramp, typewriter reveal, lazy
image swap) the callback triggers the animation and immediately
unobserves the element, so over any sequence of visibility crossings an
element appears in the trigger log at most once; for the scroll-driven
fade-in, `classList.add('visible')` flips the element's `visible` flag
from off to on at most once over any sequence of scroll events. -/
theorem one_shot_fires_at_most_once (elems : List ℕ) (events : List (ℕ × Bool)) (e : ℕ)
    (scrollEvents : List (ℤ × ℤ)) :
    (elems.Nodup → (observerRun elems events).triggers.count e ≤ 1) ∧
    fadeInTriggerCount false scrollEvents ≤ 1 := by
  constructor
  · intro hnd
    exact ((observerRun_inv elems hnd events).2 e).2
  · induction scrollEvents with
    | nil => simp [fadeInTriggerCount]
    | cons ev evs ih =>
      rw [fadeInTriggerCount]
      rcases hv : animateOnScrollStep ev.1 ev.2 false with _ | _
      · simpa [hv] using ih
      · simp [hv, fadeInTriggerCount_true]

/-- The theme slot of `localStorage` together with the `data-theme`
attribute on `document.body` (`none` = attribute/key absent). -/
structure ThemeState where
  storage : Option String
  bodyAttr : Option String
deriving DecidableEq, Repr

/-- JavaScript `a || b` for a nullable string `a`: both `null` and the
empty string are falsy. -/
def jsOrElse (a : Option String) (b : String) : String :=
  match a with
  | none => b
  | some s => if s = "" then b else s

/-- Page load: `const currentTheme = localStorage.getItem('theme') ||
'light'; document.body.setAttribute('data-theme', currentTheme);` — the
persisted value is read (defaulting to `"light"`) and applied; storage is
not written. -/
def themeLoad (storage : Option String) : ThemeState :=
  { storage := storage, bodyAttr := some (jsOrElse storage "light") }

/-- The `themeToggle` click handler: `const newTheme =
document.body.getAttribute('data-theme') === 'light' ? 'dark' : 'light';
document.body.setAttribute('data-theme', newTheme);
localStorage.setItem('theme', newTheme);`. -/
def themeToggleClick (s : ThemeState) : ThemeState :=
  let newTheme := if s.bodyAttr = some "light" then "dark" else "light"
  { storage := some newTheme, bodyAttr := some newTheme }

/-- `n` toggle clicks after a page load with persisted value `storage`. -/
def themeClicks (storage : Option String) (n : ℕ) : ThemeState :=
  themeToggleClick^[n] (themeLoad storage)

/-- A simulated reload: the DOM is reset, the persisted slot survives,
and the load handler runs again. -/
def themeReload (s : ThemeState) : ThemeState := themeLoad s.storage

/-- C3: the theme flag is a persisted binary preference.  On load the
persisted value is applied as the page attribute, defaulting to
`"light"` when absent; each click flips the attribute between `"light"`
and `"dark"`, applies it and persists it (attribute and storage agree,
and two consecutive clicks never leave the attribute unchanged); and
after at least one click, a simulated reload re-applies exactly the last
written value. -/
theorem theme_persisted_binary_preference (st : Option String) (s : ThemeState) (n : ℕ) :
    (themeLoad none).bodyAttr = some "light" ∧
    (∀ v : String, v ≠ "" → (themeLoad (some v)).bodyAttr = some v) ∧
    ((themeToggleClick s).bodyAttr =
        some (if s.bodyAttr = some "light" then "dark" else "light") ∧
      (themeToggleClick s).storage = (themeToggleClick s).bodyAttr) ∧
    (themeToggleClick (themeToggleClick s)).bodyAttr ≠ (themeToggleClick s).bodyAttr ∧
    (1 ≤ n → (themeReload (themeClicks st n)).bodyAttr = (themeClicks st n).storage) := by
  refine ⟨rfl, ?_, ⟨rfl, rfl⟩, ?_, ?_⟩
  · intro v hv
    simp [themeLoad, jsOrElse, hv]
  · by_cases h : s.bodyAttr = some "light" <;> simp [themeToggleClick, h]
  · intro hn
    obtain ⟨m, rfl⟩ : ∃ m, n = m + 1 := ⟨n - 1, by omega⟩
    rw [themeClicks, Function.iterate_succ_apply']
    set u := themeToggleClick^[m] (themeLoad st) with hu
    by_cases h : u.bodyAttr = some "light"
    · rw [show themeToggleClick u = { storage := some "dark", bodyAttr := some "dark" } from
        by simp [themeToggleClick, h]]
      simp [themeReload, themeLoad, jsOrElse]
    · rw [show themeToggleClick u = { storage := some "light", bodyAttr := some "light" } from
        by simp [themeToggleClick, h]]
      simp [themeReload, themeLoad, jsOrElse]

/-- The scroll handler for the injected scroll-to-top button:
`scrollToTopBtn.style.display = window.pageYOffset > 300 ? 'flex' :
'none'` (written as if/else in the source). -/
def scrollToTopDisplay (pageYOffset : ℤ) : String :=
  if pageYOffset > 300 then "flex" else "none"

/-- The button's `display` after a sequence of scroll events: every event
recomputes the display purely from the current offset. -/
def scrollToTopRun (initDisplay : String) (offsets : List ℤ) : String :=
  offsets.foldl (fun _ y => scrollToTopDisplay y) initDisplay

/-- C5: the scroll-to-top control is hidden (`display: none`) exactly
when the offset is at most 300 and shown (`display: flex`) exactly when
it exceeds 300; the display depends only on the latest offset, so the
boundary convention is the same scrolling down and scrolling up. -/
theorem scroll_to_top_threshold (y : ℤ) (ys : List ℤ) (d : String) :
    (scrollToTopDisplay y = "none" ↔ y ≤ 300) ∧
    (scrollToTopDisplay y = "flex" ↔ 300 < y) ∧
    scrollToTopRun d (ys ++ [y]) = scrollToTopDisplay y := by
  have hne : ("flex" : String) ≠ "none" := by decide
  refine ⟨?_, ?_, ?_⟩
  · unfold scrollToTopDisplay
    split
    · simp only [hne, false_iff]
      omega
    · simp only [true_iff]
      omega
  · unfold scrollToTopDisplay
    split
    · simp only [true_iff]
      omega
    · simp only [Ne.symm hne, false_iff]
      omega
  · simp [scrollToTopRun, List.foldl_append, List.foldl_cons]

/-- An externally observable browser action of the share/clipboard
helpers. -/
inductive BrowserEffect where
  | nativeShare (title url : String)
  | clipboardWrite (text : String)
  | notification (message severity : String)
deriving DecidableEq, Repr

/-- `copyToClipboard(text)`: `navigator.clipboard.writeText(text)` and,
only when the asynchronous write fulfills, the `.then` callback runs
`showNotification('Скопировано в буфер обмена!', 'success')`. -/
def copyToClipboard (text : String) (writeSucceeds : Bool) : List BrowserEffect :=
  .clipboardWrite text ::
    (if writeSucceeds then [.notification "Скопировано в буфер обмена!" "success"] else [])

/-- `shareContent(title, url)`: `if (navigator.share) navigator.share({title,
url}); else copyToClipboard(url);`. -/
def shareContent (hasNativeShare : Bool) (title url : String) (writeSucceeds : Bool) :
    List BrowserEffect :=
  if hasNativeShare then [.nativeShare title url] else copyToClipboard url writeSucceeds

/-- C6: with native share present, `shareContent` performs exactly the
native share; with it absent, it copies the url to the clipboard and, on
successful copy, emits the success notification. -/
theorem shareContent_native_or_clipboard_fallback (title url : String) (ws : Bool) :
    shareContent true title url ws = [.nativeShare title url] ∧
    shareContent false title url ws =
      .clipboardWrite url ::
        (if ws then [.notification "Скопировано в буфер обмена!" "success"] else []) ∧
    (ws = true →
      .notification "Скопировано в буфер обмена!" "success" ∈ shareContent false title url ws) := by
  refine ⟨rfl, rfl, ?_⟩
  intro h
  subst h
  simp [shareContent, copyToClipboard]

/-- The children of `document.body` (node ids; a freshly created
notification node is a new id). -/
structure PageState where
  body : List ℕ
deriving DecidableEq, Repr

/-- `document.body.appendChild(notification)` in `showNotification`. -/
def appendNotification (s : PageState) (node : ℕ) : PageState :=
  { body := s.body ++ [node] }

/-- The `setTimeout(..., 5000)` callback of `showNotification`:
`if (notification.parentNode) notification.remove()` — remove the node if
it is still attached, otherwise do nothing (no error). -/
def notificationTimeoutFire (s : PageState) (node : ℕ) : PageState :=
  if node ∈ s.body then { body := s.body.erase node } else s

/-- Manual dismissal (the banner's close button) removes the node. -/
def dismissNotification (s : PageState) (node : ℕ) : PageState :=
  { body := s.body.erase node }

/-- C8: a notification node appended by `showNotification` is removed by
the 5000ms timeout callback even when never dismissed manually (the body
returns to its previous children); and when the node was manually
dismissed before the timeout, the `parentNode` guard makes the callback a
no-op rather than an error. -/
theorem notification_autoremove (s : PageState) (node : ℕ) (h : node ∉ s.body) :
    node ∈ (appendNotification s node).body ∧
    (notificationTimeoutFire (appendNotification s node) node).body = s.body ∧
    node ∉ (notificationTimeoutFire (appendNotification s node) node).body ∧
    notificationTimeoutFire (dismissNotification (appendNotification s node) node) node =
      dismissNotification (appendNotification s node) node := by
  have happ : (s.body ++ [node]).erase node = s.body := by
    rw [List.erase_append_right _ h]
    simp
  have hfire : notificationTimeoutFire (appendNotification s node) node = { body := s.body } := by
    rw [notificationTimeoutFire, if_pos (by simp [appendNotification])]
    simp [appendNotification, happ]
  refine ⟨by simp [appendNotification], by rw [hfire], by rw [hfire]; exact h, ?_⟩
  have hdis : dismissNotification (appendNotification s node) node = { body := s.body } := by
    simp [dismissNotification, appendNotification, happ]
  rw [hdis, notificationTimeoutFire, if_neg h]

/-- C8 witness: an empty body, node id `0`. -/
theorem notification_autoremove_witness :
    (0 : ℕ) ∈ (appendNotification { body := [] } 0).body ∧
    (notificationTimeoutFire (appendNotification { body := [] } 0) 0).body = PageState.body { body := [] } ∧
    (0 : ℕ) ∉ (notificationTimeoutFire (appendNotification { body := [] } 0) 0).body ∧
    notificationTimeoutFire (dismissNotification (appendNotification { body := [] } 0) 0) 0 =
      dismissNotification (appendNotification { body := [] } 0) 0 :=
  notification_autoremove { body := [] } 0 (by simp)

/-- One call of `typeWriter` for a `.typewriter` element whose saved
source text is `text` (a JS string, modelled as its character list): the
state is `(element.textContent, i)`; if `i < text.length`, append
`text.charAt(i)` to the content and advance `i` (scheduling the next
call after 50ms), otherwise do nothing. -/
def typeWriterStep (text : List Char) (s : List Char × ℕ) : List Char × ℕ :=
  if s.2 < text.length then (s.1 ++ (text.drop s.2).take 1, s.2 + 1) else s

/-- `k` scheduled calls of `typeWriter`, starting from the cleared
element (`element.textContent = ''`) and `i = 0`. -/
def typeWriterRun (text : List Char) (k : ℕ) : List Char × ℕ :=
  (typeWriterStep text)^[k] ([], 0)

lemma take_one_eq_head (l : List Char) : l.take 1 = l[0]?.toList := by
  cases l <;> simp

lemma typeWriterRun_closed (text : List Char) (k : ℕ) :
    typeWriterRun text k = (text.take (min k text.length), min k text.length) := by
  induction k with
  | zero => simp [typeWriterRun]
  | succ n ih =>
    rw [typeWriterRun, Function.iterate_succ_apply', ← typeWriterRun, ih, typeWriterStep]
    rcases Nat.lt_or_ge n text.length with h | h
    · have hmin : min n text.length = n := min_eq_left h.le
      rw [hmin]
      rw [if_pos h]
      have hdrop : (text.drop n).take 1 = text[n]?.toList := by
        rw [take_one_eq_head, List.getElem?_drop, Nat.add_zero]
      rw [hdrop, ← List.take_succ, min_eq_left (by omega : n + 1 ≤ text.length)]
    · have hmin : min n text.length = text.length := min_eq_right h
      rw [hmin, if_neg (lt_irrefl _), min_eq_right (by omega : text.length ≤ n + 1)]

/-- C9: the typewriter reveal appends exactly one character of the saved
source text per call: after `k` calls the element shows the first `k`
characters (capped at the full text), each call extends the previous
content, once `k` reaches the text's length the content equals the full
original string, and from then on further calls append nothing. -/
theorem typewriter_reveals_full_text (text : List Char) (k : ℕ) :
    (typeWriterRun text k).1 = text.take (min k text.length) ∧
    (text.length ≤ k → typeWriterRun text k = (text, text.length)) ∧
    typeWriterStep text (text, text.length) = (text, text.length) ∧
    List.IsPrefix (typeWriterRun text k).1 (typeWriterRun text (k + 1)).1 := by
  refine ⟨?_, ?_, ?_, ?_⟩
  · rw [typeWriterRun_closed]
  · intro h
    rw [typeWriterRun_closed, min_eq_right h, List.take_length]
  · rw [typeWriterStep, if_neg (lt_irrefl _)]
  · rw [typeWriterRun_closed, typeWriterRun_closed]
    exact List.take_prefix_take_left text (by omega : min k text.length ≤ min (k + 1) text.length)

end MainJs
